import Mathlib

/-!
Verification development for the vscode-ember-template-lint extension.

The development shallowly embeds the lint pipeline of src/linter.ts:
the debounced scheduler `updateDiagnostics`, the per-cycle worker
`lintTemplate`, the issue-to-diagnostic mapping
`getDiagnosticForLintResult`, and the external collaborators the code
calls into (the find-up configuration lookup, node path.relative,
child_process.spawnSync, JSON.parse and the VS Code diagnostic
collection).  Paths are modelled as lists of components of an absolute
path, the filesystem and the subprocess as functions supplied in an
environment record, and machine strings as Lean strings.
-/

namespace ETL

/-! ### Characters that the token scanner of this development spells via
code points: double quote (34), backslash (92), opening brace (123),
closing brace (125). -/

def quoteChar : Char := Char.ofNat 34

def backslashChar : Char := Char.ofNat 92

def lbraceChar : Char := Char.ofNat 123

def rbraceChar : Char := Char.ofNat 125

/-! ### JSON values and JSON.parse

The subprocess contract of linter.ts expects a JSON object on stdout
(linter.ts:189 calls JSON.parse).  `Json` models parsed JSON values;
numbers are restricted to integers, which covers every field of the
documented lint payload (severity, line, column are integers).
`jsonParse` is a recursive-descent parser for this fragment; like
JSON.parse it rejects trailing non-whitespace, so output with text
appended after the JSON object fails to parse. -/

inductive Json where
  | null
  | bool (b : Bool)
  | num (n : Int)
  | str (s : String)
  | arr (elems : List Json)
  | obj (members : List (String × Json))

def isJsonWs (c : Char) : Bool :=
  c == ' ' || c == Char.ofNat 9 || c == Char.ofNat 10 || c == Char.ofNat 13

def skipWs : List Char → List Char
  | [] => []
  | c :: cs => if isJsonWs c then skipWs cs else c :: cs

def digitVal (c : Char) : Option Nat :=
  if c == '0' then some 0
  else if c == '1' then some 1
  else if c == '2' then some 2
  else if c == '3' then some 3
  else if c == '4' then some 4
  else if c == '5' then some 5
  else if c == '6' then some 6
  else if c == '7' then some 7
  else if c == '8' then some 8
  else if c == '9' then some 9
  else none

def parseDigitsGo : Nat → List Char → Nat × List Char
  | acc, [] => (acc, [])
  | acc, c :: cs =>
    match digitVal c with
    | some d => parseDigitsGo (acc * 10 + d) cs
    | none => (acc, c :: cs)

def parseNatNum : List Char → Option (Nat × List Char)
  | [] => none
  | c :: cs =>
    match digitVal c with
    | some d => some (parseDigitsGo d cs)
    | none => none

def parseNum : List Char → Option (Int × List Char)
  | '-' :: cs => (parseNatNum cs).map (fun p => (-(p.1 : Int), p.2))
  | cs => (parseNatNum cs).map (fun p => ((p.1 : Int), p.2))

def escChar (c : Char) : Option Char :=
  if c == quoteChar then some quoteChar
  else if c == backslashChar then some backslashChar
  else if c == '/' then some '/'
  else if c == 'n' then some (Char.ofNat 10)
  else if c == 't' then some (Char.ofNat 9)
  else if c == 'r' then some (Char.ofNat 13)
  else if c == 'b' then some (Char.ofNat 8)
  else if c == 'f' then some (Char.ofNat 12)
  else none

/-- Parses the body of a JSON string after the opening quote, returning
the decoded characters and the remainder after the closing quote. -/
def parseStrChars : List Char → Option (List Char × List Char)
  | [] => none
  | c :: cs =>
    if c == quoteChar then some ([], cs)
    else if c == backslashChar then
      match cs with
      | [] => none
      | e :: cs2 =>
        match escChar e with
        | none => none
        | some r =>
          match parseStrChars cs2 with
          | none => none
          | some p => some (r :: p.1, p.2)
    else
      match parseStrChars cs with
      | none => none
      | some p => some (c :: p.1, p.2)

mutual

def parseVal : Nat → List Char → Option (Json × List Char)
  | 0, _ => none
  | Nat.succ fuel, s =>
    match skipWs s with
    | [] => none
    | c :: cs =>
      if c == quoteChar then
        match parseStrChars cs with
        | some p => some (Json.str (String.mk p.1), p.2)
        | none => none
      else if c == lbraceChar then parseObjTail fuel (skipWs cs)
      else if c == '[' then parseArrTail fuel (skipWs cs)
      else
        match c :: cs with
        | 't' :: 'r' :: 'u' :: 'e' :: rest => some (Json.bool true, rest)
        | 'f' :: 'a' :: 'l' :: 's' :: 'e' :: rest => some (Json.bool false, rest)
        | 'n' :: 'u' :: 'l' :: 'l' :: rest => some (Json.null, rest)
        | other =>
          match parseNum other with
          | some p => some (Json.num p.1, p.2)
          | none => none

def parseArrTail : Nat → List Char → Option (Json × List Char)
  | 0, _ => none
  | Nat.succ fuel, s =>
    match skipWs s with
    | ']' :: rest => some (Json.arr [], rest)
    | s2 =>
      match parseVal fuel s2 with
      | none => none
      | some p =>
        match parseElemsRest fuel p.2 with
        | none => none
        | some q => some (Json.arr (p.1 :: q.1), q.2)

def parseElemsRest : Nat → List Char → Option (List Json × List Char)
  | 0, _ => none
  | Nat.succ fuel, s =>
    match skipWs s with
    | ']' :: rest => some ([], rest)
    | ',' :: rest =>
      match parseVal fuel rest with
      | none => none
      | some p =>
        match parseElemsRest fuel p.2 with
        | none => none
        | some q => some (p.1 :: q.1, q.2)
    | _ => none

def parseObjTail : Nat → List Char → Option (Json × List Char)
  | 0, _ => none
  | Nat.succ fuel, s =>
    match skipWs s with
    | [] => none
    | c :: cs =>
      if c == rbraceChar then some (Json.obj [], cs)
      else
        match parseMember fuel (c :: cs) with
        | none => none
        | some p =>
          match parseMembersRest fuel p.2 with
          | none => none
          | some q => some (Json.obj (p.1 :: q.1), q.2)

def parseMember : Nat → List Char → Option ((String × Json) × List Char)
  | 0, _ => none
  | Nat.succ fuel, s =>
    match skipWs s with
    | [] => none
    | c :: cs =>
      if c == quoteChar then
        match parseStrChars cs with
        | none => none
        | some p =>
          match skipWs p.2 with
          | ':' :: rest =>
            match parseVal fuel rest with
            | none => none
            | some q => some ((String.mk p.1, q.1), q.2)
          | _ => none
      else none

def parseMembersRest : Nat → List Char → Option (List (String × Json) × List Char)
  | 0, _ => none
  | Nat.succ fuel, s =>
    match skipWs s with
    | [] => none
    | c :: cs =>
      if c == rbraceChar then some ([], cs)
      else if c == ',' then
        match parseMember fuel cs with
        | none => none
        | some p =>
          match parseMembersRest fuel p.2 with
          | none => none
          | some q => some (p.1 :: q.1, q.2)
      else none

end

/-- Models JSON.parse as used at linter.ts:189: parse one value,
allowing surrounding whitespace, and fail on any trailing text. -/
def jsonParse (s : String) : Option Json :=
  match parseVal (4 * (s.toList.length + 1)) s.toList with
  | none => none
  | some p => if skipWs p.2 = [] then some p.1 else none

/-- Property lookup on a parsed JSON value, as in the subscript access
jsonResult[targetRelativePath] at linter.ts:192.  JSON.parse keeps the
last of duplicate keys, hence the lookup prefers later members. -/
def lookupLast : List (String × Json) → String → Option Json
  | [], _ => none
  | kv :: rest, key =>
    match lookupLast rest key with
    | some r => some r
    | none => if kv.1 = key then some kv.2 else none

def jsonLookup : Json → String → Option Json
  | Json.obj members, key => lookupLast members key
  | _, _ => none

/-! ### Strings and paths

Absolute filesystem paths are modelled as the list of their components;
the root directory is the empty list.  `strEndsWith` models
String.prototype.endsWith, and `isHbsFile` the check
document.uri.fsPath.endsWith of linter.ts:33 (a path string ends in
".hbs" exactly when its last component does, since ".hbs" contains no
separator). -/

def listStartsWith : List Char → List Char → Bool
  | [], _ => true
  | _ :: _, [] => false
  | p :: ps, c :: cs => p == c && listStartsWith ps cs

def strEndsWith (s suffixStr : String) : Bool :=
  listStartsWith suffixStr.toList.reverse s.toList.reverse

/-- Models node path.relative on normalized absolute paths: strip the
common prefix, then one ".." per remaining component of the source,
then the remaining components of the target (linter.ts:122). -/
def stripCommon : List String → List String → List String × List String
  | a :: as, b :: bs => if a = b then stripCommon as bs else (a :: as, b :: bs)
  | as, bs => (as, bs)

def pathRelative (fromDir toPath : List String) : String :=
  let p := stripCommon fromDir toPath
  String.intercalate "/" (p.1.map (fun _ => "..") ++ p.2)

/-- Lists a directory followed by all of its ancestors up to and
including the root, in upward order, spending one unit of fuel per
directory visited. -/
def ancestorsAux : Nat → List String → List (List String)
  | 0, _ => []
  | Nat.succ fuel, d =>
    d ::
      match d with
      | [] => []
      | _ :: _ => ancestorsAux fuel d.dropLast

/-- Lists a directory followed by all of its ancestors up to and
including the root, in upward order. -/
def ancestorsFrom (d : List String) : List (List String) :=
  ancestorsAux (d.length + 1) d

/-- Walks one directory at a time as long as fuel remains; the walk of
`findUpSync` always carries enough fuel to reach the root. -/
def findUpAux (hasFile : List String → String → Bool) (name : String) :
    Nat → List String → Option (List String)
  | 0, _ => none
  | Nat.succ fuel, d =>
    if hasFile d name then some (d ++ [name])
    else
      match d with
      | [] => none
      | _ :: _ => findUpAux hasFile name fuel d.dropLast

/-- Models the find-up dependency as invoked at linter.ts:109:
findUp.sync(name, cwd) walks from cwd upward through parent directories
and returns the path of the first file called `name` that it finds, or
none once the root has been searched without a match.  The filesystem
is abstracted by `hasFile d n`, true when directory d contains an entry
named n. -/
def findUpSync (hasFile : List String → String → Bool) (name : String)
    (start : List String) : Option (List String) :=
  findUpAux hasFile name (start.length + 1) start

/-! ### The VS Code diagnostic model

Only the parts of the host API that linter.ts observes are modelled: a
diagnostic record, and a diagnostic collection keyed by document path,
with the two operations the source uses, collection.clear() at
linter.ts:35 and collection.set(uri, list) at linter.ts:208. -/

structure VsRange where
  startLine : Int
  startCharacter : Int
  endLine : Int
  endCharacter : Int
deriving DecidableEq

inductive VsSeverity where
  | error
  | information
deriving DecidableEq

structure Diagnostic where
  message : String
  severity : VsSeverity
  source : String
  code : Option String
  range : Option VsRange
deriving DecidableEq

abbrev DiagCollection := List String → List Diagnostic

/-- Models DiagnosticCollection.set: replace the full diagnostic list
of one document, leaving every other document untouched. -/
def setDiag (c : DiagCollection) (key : List String) (v : List Diagnostic) :
    DiagCollection :=
  fun p => if p = key then v else c p

/-- Models DiagnosticCollection.clear: remove the diagnostics of all
documents. -/
def clearAll : DiagCollection := fun _ => []

/-! ### Lint issues and their mapping to diagnostics -/

/-- Represents one entry of the lint payload with the five fields that
getDiagnosticForLintResult destructures (linter.ts:71), typed as the
payload documents them: optional string rule, string message, integer
severity, optional integer line and column. -/
structure LintIssue where
  rule : Option String
  message : String
  severity : Int
  line : Option Int
  column : Option Int
deriving DecidableEq

/-- Models the JavaScript truthiness test applied to the optional rule
string at linter.ts:79: undefined and the empty string are falsy, any
other string is truthy. -/
def jsTruthyOptStr : Option String → Bool
  | none => false
  | some s => !(s == "")

/-- Embeds getDiagnosticForLintResult (linter.ts:70): severity code 2
maps to the error severity and anything else to information; the code
field is set only when the rule field is truthy; the range is built
only when both line and column are not undefined, as the single
character from (line-1, column) to (line-1, column+1). -/
def getDiagnosticForLintResult (lintResult : LintIssue) : Diagnostic :=
  { message := lintResult.message
    severity := if lintResult.severity = 2 then VsSeverity.error else VsSeverity.information
    source := "ember-template-linter"
    code := if jsTruthyOptStr lintResult.rule then lintResult.rule else none
    range :=
      match lintResult.line, lintResult.column with
      | some line, some column => some ⟨line - 1, column, line - 1, column + 1⟩
      | _, _ => none }

/-- Reads the five destructured fields off a parsed JSON issue object.
The reading follows the documented field types of the payload (string
rule and message, integer severity, line and column); a field that is
absent reads as undefined does in the source. -/
def lintIssueOfJson (j : Json) : LintIssue :=
  { rule :=
      match jsonLookup j "rule" with
      | some (Json.str s) => some s
      | _ => none
    message :=
      match jsonLookup j "message" with
      | some (Json.str s) => s
      | _ => ""
    severity :=
      match jsonLookup j "severity" with
      | some (Json.num n) => n
      | _ => 0
    line :=
      match jsonLookup j "line" with
      | some (Json.num n) => some n
      | _ => none
    column :=
      match jsonLookup j "column" with
      | some (Json.num n) => some n
      | _ => none }

/-! ### The subprocess model

child_process.spawnSync (linter.ts:141) is abstracted by a function of
the environment from the spawn arguments the source passes (working
directory, the --filename argument and the stdin text) to a result
carrying the fields the source reads: error, status and stdout.  A
spawn failure and a timeout both surface through the error field, as
they do on the spawnSync result object. -/

inductive SpawnFailure where
  | couldNotStart
  | timedOut
deriving DecidableEq

structure SpawnResult where
  error : Option SpawnFailure
  status : Option Int
  stdoutS : String
deriving DecidableEq

structure SpawnCall where
  cwd : List String
  filenameArg : String
  input : String
deriving DecidableEq

/-- Collects the ambient collaborators of one lint cycle: the
filesystem consulted by find-up, the subprocess, and whether the CI
environment variable equals the string true (linter.ts:177). -/
structure Env where
  hasFile : List String → String → Bool
  spawn : SpawnCall → SpawnResult
  ciIsTrue : Bool

def configFileName : String := ".template-lintrc.js"

def ciErrorMarker : String := "##[error]"

/-- Finds the first index at which `pat` occurs in a character list,
modelling String.prototype.indexOf at linter.ts:179. -/
def findSubIdx (pat : List Char) : List Char → Option Nat
  | [] => if pat = [] then some 0 else none
  | c :: cs =>
    if listStartsWith pat (c :: cs) then some 0
    else (findSubIdx pat cs).map (fun i => i + 1)

/-- Embeds the CI stdout cleanup of linter.ts:179-184: when the test
runner marker occurs in the output, keep only the part before it. -/
def stripCiErrorFragment (output : String) : String :=
  match findSubIdx ciErrorMarker.toList output.toList with
  | some i => String.mk (output.toList.take i)
  | none => output

/-- Applies the CI cleanup exactly when process.env.CI equals the
string true (linter.ts:177). -/
def effectiveOutput (env : Env) (output : String) : String :=
  if env.ciIsTrue then stripCiErrorFragment output else output

/-! ### Documents and the lint cycle -/

/-- Carries what linter.ts reads off a vscode.TextDocument: the
absolute path of document.uri.fsPath (as components) and the live text
returned by document.getText(). -/
structure TextDocument where
  fsPath : List String
  text : String
deriving DecidableEq

/-- Embeds the extension check of linter.ts:33.  A component path ends
in ".hbs" exactly when its last component does. -/
def isHbsFile (document : TextDocument) : Bool :=
  match document.fsPath.getLast? with
  | some s => strEndsWith s ".hbs"
  | none => false

/-- Signals a JavaScript exception escaping lintTemplate; the only such
exception is the TypeError raised by calling .map on the undefined (or
non-array) value read off the parsed JSON at linter.ts:192 and mapped
over at linter.ts:207. -/
inductive RunError where
  | typeError
deriving DecidableEq

def theSpawnCall (configFile : List String) (document : TextDocument) : SpawnCall :=
  { cwd := configFile.dropLast
    filenameArg := pathRelative configFile.dropLast document.fsPath
    input := document.text }

/-- Computes the lint issues of one cycle from the spawnSync result,
following linter.ts:155-203: a spawn error (including timeout) leaves
the issue list empty; so do a zero status and an empty stdout; on a
nonzero status with nonempty stdout the (possibly CI-stripped) output
is parsed, a parse failure leaves the list empty, and a parse success
reads the issues under the --filename key — where a missing key or a
non-array value makes linter.ts:207 throw a TypeError, because the
assignment at linter.ts:192 happened before the length access threw
inside the try block. -/
def lintOutcomeOfSpawn (env : Env) (document : TextDocument)
    (collection : DiagCollection) (targetRelativePath : String)
    (result : SpawnResult) : Except RunError DiagCollection :=
  let publish := fun (issues : List Json) =>
    Except.ok (setDiag collection document.fsPath
      ((issues.map lintIssueOfJson).map getDiagnosticForLintResult))
  match result.error with
  | some _ => publish []
  | none =>
    if result.status ≠ some 0 ∧ result.stdoutS ≠ "" then
      match jsonParse (effectiveOutput env result.stdoutS) with
      | none => publish []
      | some jsonResult =>
        match jsonLookup jsonResult targetRelativePath with
        | some (Json.arr issues) => publish issues
        | _ => Except.error RunError.typeError
    else publish []

structure LintCycleResult where
  spawned : Option SpawnCall
  outcome : Except RunError DiagCollection

/-- Embeds lintTemplate (linter.ts:99): resolve the nearest
.template-lintrc.js above the document directory with find-up; with no
configuration the issue list stays empty and the collection is set for
the document; with a configuration, spawn the linter from the config
directory on the relative path and interpret its result. -/
def lintTemplate (env : Env) (document : TextDocument)
    (collection : DiagCollection) : LintCycleResult :=
  let targetDir := document.fsPath.dropLast
  match findUpSync env.hasFile configFileName targetDir with
  | none =>
      { spawned := none
        outcome := Except.ok (setDiag collection document.fsPath
          (List.map getDiagnosticForLintResult [])) }
  | some configFile =>
      let call := theSpawnCall configFile document
      { spawned := some call
        outcome := lintOutcomeOfSpawn env document collection
          call.filenameArg (env.spawn call) }

/-- Projects the collection out of a cycle outcome at one document key;
none when the cycle ended in an escaped exception. -/
def resultAt (outcome : Except RunError DiagCollection) (p : List String) :
    Option (List Diagnostic) :=
  match outcome with
  | Except.ok c => some (c p)
  | Except.error _ => none

def outcomeIsTypeError (r : LintCycleResult) : Bool :=
  match r.outcome with
  | Except.error RunError.typeError => true
  | Except.ok _ => false

/-! ### The debounced scheduler

The module state of linter.ts is the single timer slot lintTimeoutId
(linter.ts:20) next to the diagnostic collection.  `updateDiagnostics`
embeds the entry point of linter.ts:30: a non-template document clears
the whole collection synchronously; a template document cancels
whatever timer is pending and schedules a lint of itself.
`fireLintTimer` embeds the timer callback of linter.ts:49: it empties
the slot and runs the lint cycle, returning the spawn performed and
the exception escaping, if any.  A burst of requests each arriving
before the debounce delay elapses means no timer fires between them,
so the burst is a plain fold of `updateDiagnostics`. -/

structure OrchState where
  lintTimeoutId : Option TextDocument
  collection : DiagCollection

def updateDiagnostics (document : TextDocument) (s : OrchState) : OrchState :=
  if isHbsFile document then { s with lintTimeoutId := some document }
  else { s with collection := clearAll }

def fireLintTimer (env : Env) (s : OrchState) :
    OrchState × Option SpawnCall × Option RunError :=
  match s.lintTimeoutId with
  | none => (s, none, none)
  | some document =>
    let r := lintTemplate env document s.collection
    match r.outcome with
    | Except.ok c => (⟨none, c⟩, r.spawned, none)
    | Except.error e => (⟨none, s.collection⟩, r.spawned, some e)

def processBurst (docs : List TextDocument) (s : OrchState) : OrchState :=
  docs.foldl (fun st d => updateDiagnostics d st) s

/-! ### Concrete instances used by witnesses and counterexamples -/

def sampleDiag : Diagnostic :=
  ⟨"sample", VsSeverity.error, "ember-template-linter", none, none⟩

/-- Describes a template document /p/a.hbs. -/
def docA : TextDocument := ⟨["p", "a.hbs"], "body"⟩

/-- Describes a template document /q/b.hbs. -/
def docB : TextDocument := ⟨["q", "b.hbs"], "b"⟩

/-- Describes a template document /r/c.hbs. -/
def docC : TextDocument := ⟨["r", "c.hbs"], "c"⟩

/-- Describes a non-template document /q/notes.txt. -/
def docTxt : TextDocument := ⟨["q", "notes.txt"], ""⟩

/-- Gives a filesystem containing a configuration file in /p only. -/
def hasFileP : List String → String → Bool :=
  fun d n => d == ["p"] && n == configFileName

/-- Gives an environment whose subprocess always times out; the
configuration lives in /p. -/
def envTimeout : Env :=
  ⟨hasFileP, fun _ => ⟨some SpawnFailure.timedOut, none, ""⟩, false⟩

/-- Gives an environment with no configuration file anywhere. -/
def envNoConfig : Env := ⟨fun _ _ => false, fun _ => ⟨none, some 0, ""⟩, false⟩

/-- Gives an environment whose subprocess exits 1 with a JSON object
that lacks the key a.hbs passed as --filename. -/
def envMissingKey : Env :=
  ⟨hasFileP, fun _ => ⟨none, some 1, "\x7b\"b.hbs\":[]\x7d"⟩, false⟩

/-- Gives an environment with a configuration in /q whose subprocess
exits 0 with no output. -/
def envQ : Env :=
  ⟨fun d n => d == ["q"] && n == configFileName,
   fun _ => ⟨none, some 0, ""⟩, false⟩

/-- Replays a subprocess stdout that carries one issue for a.hbs
followed by the CI test runner error fragment. -/
def ciStdout : String :=
  "\x7b\"a.hbs\":[\x7b\"rule\":\"x\",\"message\":\"m\",\"severity\":2,\"line\":3,\"column\":5\x7d]\x7d##[error] boom"

/-- Pairs two environments that differ only in the CI flag and share
the same subprocess behavior, replaying `ciStdout` with exit 1. -/
def envCi (ci : Bool) : Env :=
  ⟨hasFileP, fun _ => ⟨none, some 1, ciStdout⟩, ci⟩

/-- Records prior diagnostics for /p/a.hbs. -/
def priorColl : DiagCollection := setDiag clearAll ["p", "a.hbs"] [sampleDiag]

/-- Gives a state holding diagnostics for /q/b.hbs and no pending
timer. -/
def stateWithOtherDiags : OrchState :=
  ⟨none, setDiag clearAll ["q", "b.hbs"] [sampleDiag]⟩

/-- Gives a state with a lint already pending for /r/c.hbs. -/
def stateWithTimer : OrchState := ⟨some docC, clearAll⟩

/-! ## Theorems -/

/-- C6 counterexample: an issue lacking rule, line and column whose
severity code is 0 maps to an information-tier diagnostic, so the
claim that every such issue yields an error-tier diagnostic fails. -/
theorem fatal_issue_nonerror_severity_cex :
    (getDiagnosticForLintResult ⟨none, "m", 0, none, none⟩).severity =
      VsSeverity.information ∧
    (getDiagnosticForLintResult ⟨none, "m", 0, none, none⟩).severity ≠
      VsSeverity.error := by
  decide

/-- C6 (amended): every issue lacking rule, line and column whose
severity code is 2 maps to exactly one error-tier diagnostic carrying
the issue message, with no code and no range. -/
theorem fatal_issue_severity2_diagnostic (message : String) :
    getDiagnosticForLintResult ⟨none, message, 2, none, none⟩ =
      ⟨message, VsSeverity.error, "ember-template-linter", none, none⟩ := by
  rfl

/-- C7 counterexample: an issue whose rule identifier is present but
equal to the empty string yields a diagnostic with no code, because
linter.ts:79 tests the rule for JavaScript truthiness rather than for
presence; the claimed if-and-only-if therefore fails. -/
theorem empty_rule_code_cex :
    ((⟨some "", "m", 2, none, none⟩ : LintIssue)).rule.isSome = true ∧
    (getDiagnosticForLintResult ⟨some "", "m", 2, none, none⟩).code = none := by
  decide

/-- C7 (amended): a diagnostic has error tier exactly when the issue
severity code equals 2, and carries a rule code exactly when the rule
identifier is present and non-empty. -/
theorem severity_and_rule_code_mapping (lintResult : LintIssue) :
    ((getDiagnosticForLintResult lintResult).severity = VsSeverity.error ↔
      lintResult.severity = 2) ∧
    ((getDiagnosticForLintResult lintResult).code.isSome = true ↔
      ∃ s, lintResult.rule = some s ∧ s ≠ "") := by
  constructor
  · by_cases h : lintResult.severity = 2 <;>
      simp [getDiagnosticForLintResult, h]
  · cases hr : lintResult.rule with
    | none => simp [getDiagnosticForLintResult, jsTruthyOptStr, hr]
    | some s =>
      by_cases hs : s = "" <;>
        simp [getDiagnosticForLintResult, jsTruthyOptStr, hr, hs]

/-- C8: a diagnostic carries a range exactly when both line and column
are present in the issue, and in that case the range is the single
character from (line-1, column) to (line-1, column+1). -/
theorem range_iff_line_and_column :
    (∀ lintResult : LintIssue,
      (getDiagnosticForLintResult lintResult).range.isSome = true ↔
        (lintResult.line.isSome = true ∧ lintResult.column.isSome = true)) ∧
    (∀ (rule : Option String) (message : String) (severity line column : Int),
      (getDiagnosticForLintResult ⟨rule, message, severity, some line, some column⟩).range =
        some ⟨line - 1, column, line - 1, column + 1⟩) := by
  constructor
  · intro r
    cases hl : r.line <;> cases hc : r.column <;>
      simp [getDiagnosticForLintResult, hl, hc]
  · intro rule message severity line column
    simp [getDiagnosticForLintResult]

/-- C3 counterexample: a request for a non-template document wipes the
diagnostics that another document held, because linter.ts:35 calls
collection.clear(), which clears all documents; the claim that other
documents stay unchanged fails. -/
theorem nonTemplate_clear_other_document_cex :
    isHbsFile docTxt = false ∧
    stateWithOtherDiags.collection ["q", "b.hbs"] = [sampleDiag] ∧
    (updateDiagnostics docTxt stateWithOtherDiags).collection ["q", "b.hbs"] ≠
      stateWithOtherDiags.collection ["q", "b.hbs"] := by
  decide

/-- C3 (amended): a request for a document whose path does not end in
.hbs clears the diagnostics of every document, including the requested
one, immediately and synchronously, with no debounce timer scheduled
and no subprocess; the pending timer slot is untouched. -/
theorem nonTemplate_clears_all_documents (document : TextDocument)
    (s : OrchState) (h : isHbsFile document = false) :
    (updateDiagnostics document s).collection = clearAll ∧
    (updateDiagnostics document s).lintTimeoutId = s.lintTimeoutId := by
  simp [updateDiagnostics, h]

/-- C3 witness: the amended theorem applied at the non-template
document /q/notes.txt. -/
theorem nonTemplate_clears_all_documents_witness :
    isHbsFile docTxt = false ∧
    ((updateDiagnostics docTxt stateWithOtherDiags).collection = clearAll ∧
     (updateDiagnostics docTxt stateWithOtherDiags).lintTimeoutId =
       stateWithOtherDiags.lintTimeoutId) :=
  ⟨by decide, nonTemplate_clears_all_documents docTxt stateWithOtherDiags (by decide)⟩

/-- C5: a lint cycle for a document with no resolvable configuration
spawns no subprocess and publishes an empty diagnostic set for the
document, as a successful outcome. -/
theorem no_config_publishes_empty (env : Env) (document : TextDocument)
    (collection : DiagCollection)
    (h : findUpSync env.hasFile configFileName document.fsPath.dropLast = none) :
    (lintTemplate env document collection).spawned = none ∧
    (lintTemplate env document collection).outcome =
      Except.ok (setDiag collection document.fsPath []) := by
  simp [lintTemplate, h]

/-- C5 witness: the theorem applied in an environment with no
configuration file anywhere. -/
theorem no_config_publishes_empty_witness :
    findUpSync envNoConfig.hasFile configFileName docA.fsPath.dropLast = none ∧
    ((lintTemplate envNoConfig docA clearAll).spawned = none ∧
     (lintTemplate envNoConfig docA clearAll).outcome =
       Except.ok (setDiag clearAll docA.fsPath [])) :=
  ⟨by decide, no_config_publishes_empty envNoConfig docA clearAll (by decide)⟩

/-- C1 counterexample: a cycle whose subprocess times out does perform
a diagnostic update — linter.ts:208 runs unconditionally and replaces
the prior diagnostics of the document with the empty list — so the
claim that the diagnostic set after such a cycle equals the set before
it fails whenever prior diagnostics were non-empty. -/
theorem lint_failure_replaces_prior_diagnostics_cex :
    priorColl ["p", "a.hbs"] = [sampleDiag] ∧
    resultAt (lintTemplate envTimeout docA priorColl).outcome ["p", "a.hbs"] =
      some [] ∧
    resultAt (lintTemplate envTimeout docA priorColl).outcome ["p", "a.hbs"] ≠
      some (priorColl ["p", "a.hbs"]) := by
  decide

/-- C1 (amended): every cycle that ends in subprocess unavailability,
timeout (both surfacing through the spawnSync error field) or
unparseable stdout replaces the diagnostic set of the document with
the empty set, leaving every other document untouched and raising no
exception. -/
theorem lint_failure_sets_empty_diagnostics (env : Env)
    (document : TextDocument) (collection : DiagCollection)
    (cf : List String)
    (hcf : findUpSync env.hasFile configFileName document.fsPath.dropLast = some cf)
    (hfail : (env.spawn (theSpawnCall cf document)).error ≠ none ∨
      ((env.spawn (theSpawnCall cf document)).error = none ∧
       (env.spawn (theSpawnCall cf document)).status ≠ some 0 ∧
       (env.spawn (theSpawnCall cf document)).stdoutS ≠ "" ∧
       jsonParse (effectiveOutput env (env.spawn (theSpawnCall cf document)).stdoutS) = none)) :
    lintTemplate env document collection =
      { spawned := some (theSpawnCall cf document)
        outcome := Except.ok (setDiag collection document.fsPath []) } := by
  have hout : lintOutcomeOfSpawn env document collection
      (theSpawnCall cf document).filenameArg (env.spawn (theSpawnCall cf document)) =
      Except.ok (setDiag collection document.fsPath []) := by
    unfold lintOutcomeOfSpawn
    rcases hfail with herr | ⟨herr, hst, hsd, hparse⟩
    · cases he : (env.spawn (theSpawnCall cf document)).error with
      | none => exact absurd he herr
      | some f => simp [he]
    · rw [herr]
      simp only []
      rw [if_pos ⟨hst, hsd⟩, hparse]
      simp
  simp [lintTemplate, hcf, hout]

/-- C1 witness: the amended theorem applied to the timing-out
environment. -/
theorem lint_failure_sets_empty_diagnostics_witness :
    findUpSync envTimeout.hasFile configFileName docA.fsPath.dropLast =
      some ["p", ".template-lintrc.js"] ∧
    (envTimeout.spawn (theSpawnCall ["p", ".template-lintrc.js"] docA)).error ≠ none ∧
    lintTemplate envTimeout docA clearAll =
      { spawned := some (theSpawnCall ["p", ".template-lintrc.js"] docA)
        outcome := Except.ok (setDiag clearAll docA.fsPath []) } :=
  ⟨by decide, by decide,
    lint_failure_sets_empty_diagnostics envTimeout docA clearAll
      ["p", ".template-lintrc.js"] (by decide) (Or.inl (by decide))⟩

/-- C2: when the subprocess exits nonzero with valid JSON that lacks
the key equal to the relative path passed as --filename, the lint
cycle does not complete silently: the assignment at linter.ts:192
leaves lintIssues undefined, the length access throws inside the try
block and is caught, and the map call at linter.ts:207 then throws a
TypeError that escapes lintTemplate uncaught.  The sample stdout below
parses as JSON, lacks the key a.hbs that the cycle passes as
--filename, and makes the cycle end in the escaped TypeError. -/
theorem missing_filename_key_throws :
    (jsonParse "\x7b\"b.hbs\":[]\x7d").isSome = true ∧
    (jsonLookup ((jsonParse "\x7b\"b.hbs\":[]\x7d").getD Json.null) "a.hbs").isNone = true ∧
    (theSpawnCall ["p", ".template-lintrc.js"] docA).filenameArg = "a.hbs" ∧
    outcomeIsTypeError (lintTemplate envMissingKey docA clearAll) = true := by
  decide

/-- C10: interpreting the subprocess output is not a function of the
output alone.  Two environments sharing the identical spawn behavior
but differing in whether CI equals the string true publish different
diagnostic sets for the same document: with CI set, the stdout is
truncated at the first occurrence of the marker before JSON parsing
and one diagnostic results; without CI the trailing fragment makes the
parse fail and the published set is empty. -/
theorem ci_truncation_two_run_divergence :
    (envCi true).spawn = (envCi false).spawn ∧
    resultAt (lintTemplate (envCi true) docA clearAll).outcome ["p", "a.hbs"] =
      some [⟨"m", VsSeverity.error, "ember-template-linter", some "x", some ⟨2, 5, 2, 6⟩⟩] ∧
    resultAt (lintTemplate (envCi false) docA clearAll).outcome ["p", "a.hbs"] =
      some [] ∧
    resultAt (lintTemplate (envCi true) docA clearAll).outcome ["p", "a.hbs"] ≠
      resultAt (lintTemplate (envCi false) docA clearAll).outcome ["p", "a.hbs"] :=
  ⟨rfl, by decide, by decide, by decide⟩

/-- Helper: a burst of requests for template documents only reschedules
the single timer slot — the last request wins the slot and the
collection is untouched. -/
theorem processBurst_all_hbs :
    ∀ (docs : List TextDocument) (s : OrchState) (hne : docs ≠ []),
      (∀ d ∈ docs, isHbsFile d = true) →
      (processBurst docs s).lintTimeoutId = some (docs.getLast hne) ∧
      (processBurst docs s).collection = s.collection := by
  intro docs
  induction docs with
  | nil => intro s hne hall; exact absurd rfl hne
  | cons d rest ih =>
    intro s hne hall
    have hd : isHbsFile d = true := hall d (List.mem_cons_self d rest)
    cases rest with
    | nil =>
      simp [processBurst, updateDiagnostics, hd, List.getLast]
    | cons d2 rest2 =>
      have hne2 : d2 :: rest2 ≠ [] := List.cons_ne_nil d2 rest2
      have h2 := ih (updateDiagnostics d s) hne2
        (fun x hx => hall x (List.mem_cons_of_mem d hx))
      have hstep : processBurst (d :: d2 :: rest2) s =
          processBurst (d2 :: rest2) (updateDiagnostics d s) := rfl
      have hcoll : (updateDiagnostics d s).collection = s.collection := by
        simp [updateDiagnostics, hd]
      have hlast : (d :: d2 :: rest2).getLast hne = (d2 :: rest2).getLast hne2 :=
        List.getLast_cons hne2
      constructor
      · rw [hstep, hlast]
        exact h2.1
      · rw [hstep, h2.2, hcoll]

/-- C4: during a burst of template-document lint requests each issued
before the pending debounce timer fires, no subprocess runs and no
diagnostics change; whatever timer was pending before — for any
document — the slot afterwards targets exactly the last request of the
burst; and the one timer that can subsequently fire performs at most
the single subprocess call of a lint cycle for that last document. -/
theorem debounce_burst_single_lint (docs : List TextDocument)
    (s : OrchState) (env : Env) (hne : docs ≠ [])
    (hall : ∀ d ∈ docs, isHbsFile d = true) :
    (processBurst docs s).lintTimeoutId = some (docs.getLast hne) ∧
    (processBurst docs s).collection = s.collection ∧
    (fireLintTimer env (processBurst docs s)).2.1 =
      (lintTemplate env (docs.getLast hne) (processBurst docs s).collection).spawned := by
  obtain ⟨h1, h2⟩ := processBurst_all_hbs docs s hne hall
  refine ⟨h1, h2, ?_⟩
  simp only [fireLintTimer, h1]
  cases ho : (lintTemplate env (docs.getLast hne) (processBurst docs s).collection).outcome <;>
    simp [ho]

/-- C4 witness: a two-request burst for /p/a.hbs then /q/b.hbs, issued
on a state already holding a pending lint for /r/c.hbs. -/
theorem debounce_burst_single_lint_witness :
    ([docA, docB] ≠ ([] : List TextDocument)) ∧
    (∀ d ∈ [docA, docB], isHbsFile d = true) ∧
    (processBurst [docA, docB] stateWithTimer).lintTimeoutId = some docB ∧
    (processBurst [docA, docB] stateWithTimer).collection = stateWithTimer.collection ∧
    (fireLintTimer envQ (processBurst [docA, docB] stateWithTimer)).2.1 =
      (lintTemplate envQ docB (processBurst [docA, docB] stateWithTimer).collection).spawned := by
  have h := debounce_burst_single_lint [docA, docB] stateWithTimer envQ
    (by decide) (by decide)
  exact ⟨by decide, by decide, h.1, h.2.1, h.2.2⟩

/-- Helper: with enough fuel to reach the root, the upward walk
returns the first ancestor containing the file, expressed through
List.find? over the ancestor list. -/
theorem findUpAux_eq_find (hasFile : List String → String → Bool)
    (name : String) :
    ∀ (fuel : Nat) (d : List String), d.length < fuel →
      findUpAux hasFile name fuel d =
        ((ancestorsAux fuel d).find? (fun x => hasFile x name)).map
          (fun x => x ++ [name]) := by
  intro fuel
  induction fuel with
  | zero => intro d h; omega
  | succ fuel ih =>
    intro d h
    cases d with
    | nil =>
      by_cases hr : hasFile [] name = true <;>
        simp [findUpAux, ancestorsAux, List.find?, hr]
    | cons a rest =>
      by_cases hf : hasFile (a :: rest) name = true
      · simp [findUpAux, ancestorsAux, hf, List.find?]
      · have hlen : (a :: rest).dropLast.length < fuel := by
          simp only [List.length_dropLast, List.length_cons] at *
          omega
        simp [findUpAux, ancestorsAux, hf, List.find?, ih _ hlen]

/-- C9: configuration resolution walks from the starting directory
upward and returns the configuration file path of the nearest
directory, among the start and its ancestors in upward order, that
contains the configuration filename; it returns none exactly when no
directory up to the root contains it.  Each lint cycle recomputes the
resolution from the current filesystem: the spawn it performs is a
function of the environment given to that cycle, with no cached
state anywhere in the model. -/
theorem config_resolution_nearest_ancestor :
    (∀ (hasFile : List String → String → Bool) (name : String)
        (start : List String),
      findUpSync hasFile name start =
        ((ancestorsFrom start).find? (fun d => hasFile d name)).map
          (fun d => d ++ [name]) ∧
      (findUpSync hasFile name start = none ↔
        ∀ d ∈ ancestorsFrom start, hasFile d name = false)) ∧
    (∀ (env : Env) (document : TextDocument) (collection : DiagCollection),
      (lintTemplate env document collection).spawned =
        (findUpSync env.hasFile configFileName document.fsPath.dropLast).map
          (fun configFile => theSpawnCall configFile document)) := by
  constructor
  · intro hasFile name start
    have hmain : findUpSync hasFile name start =
        ((ancestorsFrom start).find? (fun d => hasFile d name)).map
          (fun d => d ++ [name]) := by
      unfold findUpSync ancestorsFrom
      exact findUpAux_eq_find hasFile name (start.length + 1) start
        (Nat.lt_succ_self _)
    refine ⟨hmain, ?_⟩
    rw [hmain]
    simp [Option.map_eq_none, List.find?_eq_none]
  · intro env document collection
    cases h : findUpSync env.hasFile configFileName document.fsPath.dropLast <;>
      simp [lintTemplate, h]

end ETL
